import Mathlib

/-!
Shallow embedding of the acre editor-bridge daemon (src/src/main.rs and
src/plan9/src/conn.rs) sufficient to settle the frozen claims about its
specification.  Pure fragments of the Rust code are translated into Lean
functions; stateful fragments become explicit state passing; process-level
effects (9P writes, LSP notifications, panics) become explicit result
values.  External crate types (lsp_types, nine) are modelled only in the
fields the program reads.
-/

/-! ## 9P transport (src/plan9/src/conn.rs) -/

/-- Tversion request as built in Conn::new (conn.rs lines 69-73). -/
structure Tversion where
  tag : Nat
  msize : Nat
  version : String
deriving DecidableEq

/-- Rversion reply received from the server. -/
structure Rversion where
  msize : Nat
  version : String
deriving DecidableEq

/-- msize requested at construction (conn.rs line 41). -/
def requestedMsize : Nat := 131072

/-- The Tversion message sent once at construction (conn.rs lines 68-74). -/
def initialTversion (tag : Nat) : Tversion :=
  { tag := tag, msize := requestedMsize, version := ("9P2000") }

/-- Conn::new handshake logic applied to the Rversion reply (conn.rs lines
75-82): fail when the reply msize exceeds the requested one, adopt the
server msize, then fail when the version differs from 9P2000.  Returns the
negotiated msize of the connection. -/
def connHandshake (rx : Rversion) : Except String Nat :=
  if requestedMsize < rx.msize then Except.error ("invalid msize")
  else
    let m := rx.msize
    if rx.version ≠ ("9P2000") then Except.error ("invalid version")
    else Except.ok m

/-- NOTAG of 9P2000: the all-ones 16-bit tag (nine crate p2000). -/
def NOTAG : Nat := 65535

/-- Tag-allocator state of a Conn (conn.rs lines 22-28 and 42): next_tag and
free_tags live in ConnWriter; in_flight models the key set of tag_map. -/
structure TagState where
  next_tag : Nat
  free_tags : List Nat
  in_flight : List Nat
deriving DecidableEq

/-- Conn::new_tag (conn.rs lines 86-100): pop the front of the free list if
non-empty; otherwise fail when next_tag has reached NOTAG, else allocate
next_tag and increment it.  The allocated tag is registered in tag_map. -/
def new_tag (s : TagState) : Except String (Nat × TagState) :=
  match s.free_tags with
  | t :: rest =>
    Except.ok (t, { s with free_tags := rest, in_flight := t :: s.in_flight })
  | [] =>
    if s.next_tag = NOTAG then Except.error ("out of tags")
    else
      Except.ok (s.next_tag,
        { s with next_tag := s.next_tag + 1, in_flight := s.next_tag :: s.in_flight })

/-- The reader thread releasing a tag (conn.rs lines 59-64): remove it from
tag_map and push it onto the back of free_tags. -/
def release_tag (s : TagState) (t : Nat) : TagState :=
  { s with in_flight := s.in_flight.erase t, free_tags := s.free_tags ++ [t] }

/-- Tag-allocator states reachable in a run of a Conn: the initial state has
next_tag 0 and empty lists (conn.rs lines 38-39); each step either allocates
a tag or releases a tag that the reader found in tag_map. -/
inductive TagReachable : TagState → Prop
  | start : TagReachable { next_tag := 0, free_tags := [], in_flight := [] }
  | alloc {s : TagState} {t : Nat} {s2 : TagState} :
      TagReachable s → new_tag s = Except.ok (t, s2) → TagReachable s2
  | release {s : TagState} {t : Nat} :
      TagReachable s → t ∈ s.in_flight → TagReachable (release_tag s t)

/-- Invariant of the tag allocator: next_tag never passes NOTAG and no
released or outstanding tag equals NOTAG. -/
def TagInv (s : TagState) : Prop :=
  s.next_tag ≤ NOTAG ∧ (∀ t ∈ s.free_tags, t < NOTAG) ∧ (∀ t ∈ s.in_flight, t < NOTAG)

/-! ## Text edits (main.rs Server::apply_text_edits, lines 749-820)

Positions are modelled as resolved offsets into the body (the source
resolves LSP line/character pairs through NlOffsets built once from the
original body before the loop); the body is a list of characters. -/

/-- One LSP TextEdit with its range already resolved to start/end offsets
into the original body. -/
structure TextEdit where
  soff : Nat
  eoff : Nat
  new_text : List Char
deriving DecidableEq

/-- Writing new text over the acme address #s,#e of a body. -/
def splice (body : List Char) (s e : Nat) (t : List Char) : List Char :=
  body.take s ++ t ++ body.drop e

/-- The size change contributed by one edit: new_text.len - (eoff - soff)
(main.rs line 817), in the source computed in i64. -/
def editDelta (e : TextEdit) : Int :=
  (e.new_text.length : Int) - ((e.eoff : Int) - (e.soff : Int))

/-- The edit loop of apply_text_edits (main.rs lines 795-818) after
edits.iter().rev() has been taken: each edit is written at address
#(soff+delta),#(eoff+delta) and delta is bumped by its size change. -/
def applyLoop : List Char → Int → List TextEdit → List Char
  | body, _, [] => body
  | body, delta, e :: rest =>
    applyLoop
      (splice body (((e.soff : Int) + delta).toNat) (((e.eoff : Int) + delta).toNat) e.new_text)
      (delta + editDelta e) rest

/-- Server::apply_text_edits (main.rs lines 749-820).  Empty edit lists do
nothing; a single edit equal to the whole body does nothing; a single edit
covering positions (0,0)..(last line, last col) takes the line-diff path,
whose net effect (via the external diff crate) is to replace the body with
new_text; otherwise the edits are applied in reverse list order with the
delta accumulation. -/
def apply_text_edits (body : List Char) (edits : List TextEdit) : List Char :=
  match edits with
  | [] => body
  | [e] =>
    if body = e.new_text then body
    else if e.soff = 0 ∧ e.eoff = body.length then e.new_text
    else applyLoop body 0 [e]
  | e1 :: e2 :: rest => applyLoop body 0 ((e1 :: e2 :: rest).reverse)

/-- Spec-side definition, following the claim wording for C4: the string
obtained by directly splicing each new_text over its range in the original
body.  The edits are given in document order; splicing from the last edit
to the first at the original offsets realises the simultaneous splice. -/
def directSplice (body : List Char) (edits : List TextEdit) : List Char :=
  edits.foldr (fun e b => splice b e.soff e.eoff e.new_text) body

/-- Edits are in ascending document order starting at or after offset p,
with non-overlapping well-formed ranges. -/
def sortedFromB : Nat → List TextEdit → Bool
  | _, [] => true
  | p, e :: rest =>
    decide (p ≤ e.soff) && decide (e.soff ≤ e.eoff) && sortedFromB e.eoff rest

/-- Every edit ends within the body. -/
def boundedB (len : Nat) (edits : List TextEdit) : Bool :=
  edits.all (fun e => decide (e.eoff ≤ len))

/-! ## Association-list views of the coordinator HashMaps -/

/-- Lookup in an association list (HashMap::get). -/
def alookup {α β : Type} [DecidableEq α] (k : α) : List (α × β) → Option β
  | [] => none
  | p :: rest => if p.1 = k then some p.2 else alookup k rest

/-- HashMap::insert: the key is (re)bound to the new value. -/
def mapInsert {α β : Type} [DecidableEq α] (k : α) (v : β) (m : List (α × β)) :
    List (α × β) :=
  (k, v) :: m.filter (fun p => decide (p.1 ≠ k))

/-! ## Diagnostics rendering (main.rs lsp_msg, lines 558-571) -/

/-- lsp_types::DiagnosticSeverity; Debug prints the variant name. -/
inductive DiagnosticSeverity where
  | Error
  | Warning
  | Information
  | Hint
deriving DecidableEq

/-- Debug formatting of a severity, as produced by the Rust derive. -/
def severityDebug : DiagnosticSeverity → String
  | DiagnosticSeverity.Error => ("Error")
  | DiagnosticSeverity.Warning => ("Warning")
  | DiagnosticSeverity.Information => ("Information")
  | DiagnosticSeverity.Hint => ("Hint")

/-- One diagnostic in the fields the program reads: range.start.line,
severity and message. -/
structure Diagnostic where
  start_line : Nat
  severity : Option DiagnosticSeverity
  message : String
deriving DecidableEq

/-- message.lines().next().unwrap_or("") of Rust: everything before the
first newline, with a trailing carriage return stripped. -/
def firstLine (s : String) : String :=
  let l := s.data.takeWhile (fun c => c ≠ '\n')
  String.mk (if l.getLast? = some ('\r') then l.dropLast else l)

/-- The line pushed for one diagnostic (main.rs lines 562-569):
"path:line+1: [severity] first-line-of-message", severity defaulting to
Error. -/
def formatDiagnostic (path : String) (p : Diagnostic) : String :=
  path ++ (":") ++ toString (p.start_line + 1) ++ (": [")
    ++ severityDebug (p.severity.getD DiagnosticSeverity.Error) ++ ("] ")
    ++ firstLine p.message

/-- The PublishDiagnostics branch of lsp_msg (main.rs lines 558-571):
diags[path] is replaced by one formatted line per diagnostic. -/
def publishDiagnostics (diags : List (String × List String)) (path : String)
    (ds : List Diagnostic) : List (String × List String) :=
  mapInsert path (ds.map (formatDiagnostic path)) diags

/-! ## ServerWin (main.rs lines 160-220) and the didOpen of sync_windows -/

/-- Coordinator-side record of a tracked window, in the fields the claims
need; body stands for the current window body that w.read(File::Body)
returns. -/
structure ServerWin where
  name : String
  url : String
  version : Int
  body : String
deriving DecidableEq

/-- ServerWin::new (main.rs lines 170-181): the url is file:// plus the
window name and the version counter starts at 1. -/
def ServerWin.new (name : String) (body : String) : ServerWin :=
  { name := name, url := ("file://") ++ name, version := 1, body := body }

/-- ServerWin::text (main.rs lines 196-201): read the body, bump the
version by one, and return the bumped version with the body. -/
def ServerWin.text (sw : ServerWin) : ServerWin × (Int × String) :=
  let v := sw.version + 1
  ({ sw with version := v }, (v, sw.body))

/-- Versions returned by n successive ServerWin::text calls. -/
def ServerWin.textTrace : ServerWin → Nat → List Int
  | _, 0 => []
  | sw, Nat.succ n =>
    let r := ServerWin.text sw
    r.2.1 :: ServerWin.textTrace r.1 n

/-- lsp_types::TextDocumentItem in the fields the program sets. -/
structure TextDocumentItem where
  uri : String
  language_id : String
  version : Int
  text : String
deriving DecidableEq

/-- The TextDocumentItem sent in textDocument/didOpen for a newly tracked
window (main.rs lines 477-486): ServerWin::new, then sw.text(), with the
language id hardcoded to the empty string. -/
def didOpenItem (name : String) (body : String) : TextDocumentItem :=
  let sw := ServerWin.new name body
  let r := ServerWin.text sw
  { uri := r.1.url, language_id := (""), version := r.2.1, text := r.2.2 }

/-- Modelled from the spec (claim C1 wording): language id inferred from
the filename suffix, .go to go, .rs to rust, unknown to empty. -/
def specLanguageId (name : String) : String :=
  if List.isSuffixOf (String.toList (".go")) name.data then ("go")
  else if List.isSuffixOf (String.toList (".rs")) name.data then ("rust")
  else ("")

/-- lsp_types::VersionedTextDocumentIdentifier. -/
structure VersionedTextDocumentIdentifier where
  uri : String
  version : Int
deriving DecidableEq

/-- DidChangeTextDocumentParams in the fields the program sets: the
versioned identifier and the single full-text content change. -/
structure DidChangeParams where
  text_document : VersionedTextDocumentIdentifier
  content_text : String
deriving DecidableEq

/-- ServerWin::change_params (main.rs lines 202-212): sw.text() supplies
the bumped version and the full body as the one content change. -/
def ServerWin.change_params (sw : ServerWin) : ServerWin × DidChangeParams :=
  let r := ServerWin.text sw
  (r.1, { text_document := { uri := sw.url, version := r.2.1 }, content_text := r.2.2 })

/-! ## Actions (main.rs lines 107-126, 607-620, 721-729, 911-933) -/

/-- ClientId = (client name, request id); equality is structural. -/
structure ClientId where
  client_name : String
  msg_id : Nat
deriving DecidableEq

/-- lsp_types::InsertTextFormat. -/
inductive InsertTextFormat where
  | plainText
  | snippet
deriving DecidableEq

/-- lsp_types::WorkspaceEdit in the field the program could read: the map
from document to text edits. -/
structure WorkspaceEdit where
  changes : List (String × List TextEdit)
deriving DecidableEq

/-- Representative subset of lsp_types::CompletionItemKind; Debug prints
the variant name. -/
inductive CompletionItemKind where
  | text
  | method
  | function
  | field
  | module
  | property
deriving DecidableEq

/-- Debug formatting of a completion kind. -/
def kindDebug : CompletionItemKind → String
  | CompletionItemKind.text => ("Text")
  | CompletionItemKind.method => ("Method")
  | CompletionItemKind.function => ("Function")
  | CompletionItemKind.field => ("Field")
  | CompletionItemKind.module => ("Module")
  | CompletionItemKind.property => ("Property")

/-- lsp_types::CompletionItem in the fields the program reads. -/
structure CompletionItem where
  label : String
  deprecated : Option Bool
  kind : Option CompletionItemKind
  detail : Option String
  insert_text_format : Option InsertTextFormat
  text_edit : Option TextEdit
deriving DecidableEq

/-- lsp_types::Command in the field the program reads. -/
structure Command where
  title : String
deriving DecidableEq

/-- lsp_types::CodeAction in the fields the program reads. -/
structure CodeAction where
  title : String
  edit : Option WorkspaceEdit
deriving DecidableEq

/-- lsp_types::CodeActionOrCommand. -/
inductive CodeActionOrCommand where
  | command (c : Command)
  | codeAction (a : CodeAction)
deriving DecidableEq

/-- Action' stored by the coordinator (main.rs lines 107-111). -/
inductive Action' where
  | command (c : CodeActionOrCommand)
  | completion (item : CompletionItem)
deriving DecidableEq

/-- The Completion branch of lsp_msg (main.rs lines 607-620): clear the
whole actions map, then bind the completion items, truncated to 10, to this
request id. -/
def completionResponseActions (cid : ClientId) (items : List CompletionItem)
    (_actions : List (ClientId × List Action')) : List (ClientId × List Action') :=
  mapInsert cid ((items.map Action'.completion).take 10) []

/-- The CodeAction branch of lsp_msg (main.rs lines 721-729): clear the
whole actions map, then bind the commands to this request id. -/
def codeActionResponseActions (cid : ClientId) (cmds : List CodeActionOrCommand)
    (_actions : List (ClientId × List Action')) : List (ClientId × List Action') :=
  mapInsert cid (cmds.map Action'.command) []

/-- Observable outcome of Server::run_code_action (main.rs lines 911-933):
a panic, a debug print of the workspace edit (the source only println!s
it), no effect, or an apply_text_edits call on the window of a url. -/
inductive RunActionEffect where
  | panicUnsupported
  | printedEdit (e : WorkspaceEdit)
  | noEffect
  | appliedTextEdits (url : String) (fmt : InsertTextFormat) (edits : List TextEdit)
deriving DecidableEq

/-- Whether an outcome modifies an editor window. -/
def appliesEdit : RunActionEffect → Bool
  | RunActionEffect.appliedTextEdits _ _ _ => true
  | _ => false

/-- Result state and effect of run_code_action. -/
structure RunActionOut where
  actions : List (ClientId × List Action')
  effect : RunActionEffect
deriving DecidableEq

/-- Server::run_code_action (main.rs lines 911-933): look up the url
recorded for the request, pick the idx-th stored action, clear the whole
actions map, then act by kind.  The unwraps and out-of-range index of the
source are modelled as none. -/
def run_code_action (requests : List (ClientId × String))
    (actions : List (ClientId × List Action')) (cid : ClientId) (idx : Nat) :
    Option RunActionOut :=
  match alookup cid requests with
  | none => none
  | some url =>
    match alookup cid actions with
    | none => none
    | some acts =>
      match acts.get? idx with
      | none => none
      | some a =>
        some
          { actions := []
            effect :=
              match a with
              | Action'.command (CodeActionOrCommand.command _) =>
                RunActionEffect.panicUnsupported
              | Action'.command (CodeActionOrCommand.codeAction ca) =>
                match ca.edit with
                | some e => RunActionEffect.printedEdit e
                | none => RunActionEffect.noEffect
              | Action'.completion item =>
                match item.text_edit with
                | some e =>
                  RunActionEffect.appliedTextEdits url
                    (item.insert_text_format.getD InsertTextFormat.plainText) [e]
                | none => RunActionEffect.panicUnsupported }

/-- Values of the actions map reachable in a run of the coordinator: it
starts empty (main.rs line 245); the Completion and CodeAction branches of
lsp_msg rebuild it (lines 609, 619, 723, 728); run_code_action clears it
(line 914); the Get command clears it (line 938).  No other code writes
it. -/
inductive ActionsReachable : List (ClientId × List Action') → Prop
  | empty : ActionsReachable []
  | completionResp (m : List (ClientId × List Action')) (cid : ClientId)
      (items : List CompletionItem) :
      ActionsReachable m → ActionsReachable (completionResponseActions cid items m)
  | codeActionResp (m : List (ClientId × List Action')) (cid : ClientId)
      (cmds : List CodeActionOrCommand) :
      ActionsReachable m → ActionsReachable (codeActionResponseActions cid cmds m)
  | runCodeActionClear (m : List (ClientId × List Action')) :
      ActionsReachable m → ActionsReachable []
  | getClear (m : List (ClientId × List Action')) :
      ActionsReachable m → ActionsReachable []

/-! ## Gesture routing (main.rs Server::run_cmd, lines 934-977) -/

/-- The addr scan of run_cmd (main.rs lines 949-955): walk addr from the
back and take the id of the first entry whose offset is below q0, zero when
none is. -/
def lookup_addr (addr : List (Nat × Nat)) (q0 : Nat) : Nat :=
  match addr.reverse.find? (fun p => decide (p.1 < q0)) with
  | some p => p.2
  | none => 0

/-- The action_addrs scan of run_cmd (main.rs lines 961-967): walk it from
the back and take the first entry whose offset is below q0 and whose
client msg_id is non-zero. -/
def lookup_action (aa : List (Nat × ClientId × Nat)) (q0 : Nat) :
    Option (ClientId × Nat) :=
  (aa.reverse.find? (fun p => decide (p.1 < q0) && decide (p.2.1.msg_id ≠ 0))).map
    (fun p => p.2)

/-- Modelled from the spec (claim C3 wording): the id of the last addr
entry whose offset is strictly below q0 and whose id is non-zero. -/
def specLookupAddr (addr : List (Nat × Nat)) (q0 : Nat) : Option Nat :=
  ((addr.filter (fun p => decide (p.1 < q0) && decide (p.2 ≠ 0))).getLast?).map
    (fun p => p.2)

/-- What an L window event resolves to in run_cmd: a window gesture, a
stored action, or a plumb of the clicked text. -/
inductive LookDecision where
  | window (wid : Nat)
  | action (cid : ClientId) (idx : Nat)
  | plumb (text : String)
deriving DecidableEq

/-- The L branch of Server::run_cmd (main.rs lines 947-972): try the addr
table for a non-zero window id, then the action table, then plumb. -/
def run_cmd_look (addr : List (Nat × Nat)) (aa : List (Nat × ClientId × Nat))
    (q0 : Nat) (text : String) : LookDecision :=
  let wid := lookup_addr addr q0
  if wid ≠ 0 then LookDecision.window wid
  else
    match lookup_action aa q0 with
    | some r => LookDecision.action r.1 r.2
    | none => LookDecision.plumb text

/-- The LSP request kinds run_event can issue, one per match arm of
main.rs lines 827-905. -/
inductive LspRequestKind where
  | definition
  | hover
  | complete
  | references
  | symbols
  | signature
  | lens
  | assist
  | implementation
  | typedef
deriving DecidableEq

/-- The clicked text deciding the request kind (the match of main.rs lines
827-905); unrecognized texts issue no request. -/
def requestKind (t : String) : Option LspRequestKind :=
  if t = ("definition") then some LspRequestKind.definition
  else if t = ("hover") then some LspRequestKind.hover
  else if t = ("complete") then some LspRequestKind.complete
  else if t = ("references") then some LspRequestKind.references
  else if t = ("symbols") then some LspRequestKind.symbols
  else if t = ("signature") then some LspRequestKind.signature
  else if t = ("lens") then some LspRequestKind.lens
  else if t = ("assist") then some LspRequestKind.assist
  else if t = ("impl") then some LspRequestKind.implementation
  else if t = ("typedef") then some LspRequestKind.typedef
  else none

/-- Message sent to the LSP client of a routed window. -/
inductive WinMsg where
  | didChange (version : Int) (text : String)
  | request (k : LspRequestKind)
deriving DecidableEq

/-- Server::run_event (main.rs lines 821-910): the window first gets a
didChange built by sw.did_change (bumped version, current body), then the
request the clicked text names, if any. -/
def run_event_msgs (sw : ServerWin) (text : String) : ServerWin × List WinMsg :=
  let r := ServerWin.text sw
  match requestKind text with
  | some k => (r.1, [WinMsg.didChange r.2.1 r.2.2, WinMsg.request k])
  | none => (r.1, [WinMsg.didChange r.2.1 r.2.2])

/-! ## Command-window rendering (main.rs Server::sync, lines 328-443) -/

/-- cfg!(debug_assertions): the release build is modelled, where the
assist and lens tags are compiled out (main.rs lines 352-357, 370-375). -/
def debugAssertions : Bool := false

/-- lsp_types::ServerCapabilities in the fields sync reads.  Fields the
source only tests with is_some are modelled as options too. -/
structure ServerCapabilities where
  code_action_provider : Option Bool
  completion_provider : Option Bool
  definition_provider : Option Bool
  hover_provider : Option Bool
  implementation_provider : Option Bool
  code_lens_provider : Option Bool
  references_provider : Option Bool
  document_symbol_provider : Option Bool
  signature_help_provider : Option Bool
  type_definition_provider : Option Bool
deriving DecidableEq

/-- The capability tags printed for one file entry (main.rs lines 348-388),
in source order. -/
def capTags (caps : ServerCapabilities) : String :=
  (if debugAssertions && caps.code_action_provider.isSome then ("[assist] ") else (""))
  ++ (if caps.completion_provider.isSome then ("[complete] ") else (""))
  ++ (if caps.definition_provider.getD false then ("[definition] ") else (""))
  ++ (if caps.hover_provider.getD false then ("[hover] ") else (""))
  ++ (if caps.implementation_provider.isSome then ("[impl] ") else (""))
  ++ (if debugAssertions && caps.code_lens_provider.isSome then ("[lens] ") else (""))
  ++ (if caps.references_provider.getD false then ("[references] ") else (""))
  ++ (if caps.document_symbol_provider.getD false then ("[symbols] ") else (""))
  ++ (if caps.signature_help_provider.isSome then ("[signature] ") else (""))
  ++ (if caps.type_definition_provider.isSome then ("[typedef] ") else (""))

/-- Progress record (main.rs lines 67-88); the f64 percentage is modelled
as an integer, since only its deterministic rendering matters here. -/
structure Progress where
  name : String
  percentage : Option Int
  message : Option String
  title : String
deriving DecidableEq

/-- format_pct (main.rs lines 1134-1139). -/
def format_pct : Option Int → String
  | some v => toString v
  | none => ("?")

/-- Display for Progress (main.rs lines 90-105). -/
def progressDisplay (p : Progress) : String :=
  ("[") ++ format_pct p.percentage ++ ("%] ") ++ p.name ++ (":")
    ++ (match p.message with
        | some m => (" ") ++ m
        | none => (""))
    ++ (" (") ++ p.title ++ (")")

/-- Coordinator state owned by the event loop, in the fields sync reads and
writes (main.rs lines 128-158).  The HashMaps are modelled as association
lists: Rust HashMap iteration order is arbitrary but stable while the map
is unmutated, which is what the idempotence claim needs. -/
structure State where
  names : List (String × Nat)
  addr : List (Nat × Nat)
  body : String
  output : List String
  focus : String
  progress : List (String × Progress)
  diags : List (String × List String)
  actions : List (ClientId × List Action')
  action_addrs : List (Nat × ClientId × Nat)
  files : List (String × String)
  capabilities : List (String × ServerCapabilities)

/-- The diagnostics section of the body (main.rs lines 330-337): every
stored line, with a blank line after each non-empty group. -/
def renderDiags (diags : List (String × List String)) : String :=
  String.join (diags.map (fun p =>
    String.join (p.2.map (fun d => d ++ ("\n")))
      ++ (if p.2.length > 0 then ("\n") else (""))))

/-- The file-list section (main.rs lines 338-389): for each name push an
addr entry at the current offset, print the focus star, the name, a newline
and a tab, then the capability tags.  A name whose client has no recorded
capabilities gets no tags and no closing newline (the continue of line
350); the source unwraps the files lookup, which cannot fail for states
built by sync_windows, so a missing file entry is rendered the same way. -/
def renderNames (focus : String) (files : List (String × String))
    (caps : List (String × ServerCapabilities)) :
    List (String × Nat) → String → List (Nat × Nat) → String × List (Nat × Nat)
  | [], body, addr => (body, addr)
  | p :: rest, body, addr =>
    let addr2 := addr ++ [(body.length, p.2)]
    let body2 := body ++ (if p.1 = focus then ("*") else ("")) ++ p.1 ++ ("\n\t")
    let body3 :=
      match alookup p.1 files with
      | none => body2
      | some cn =>
        match alookup cn caps with
        | none => body2
        | some c => body2 ++ capTags c ++ ("\n")
    renderNames focus files caps rest body3 addr2

/-- The body line of one stored action (main.rs lines 401-420). -/
def actionLine : Action' → String
  | Action'.command (CodeActionOrCommand.command c) => ("\n[") ++ c.title ++ ("]")
  | Action'.command (CodeActionOrCommand.codeAction a) => ("\n[") ++ a.title ++ ("]")
  | Action'.completion item =>
    ("\n[insert] ") ++ item.label ++ (":")
      ++ (if item.deprecated.getD false then (" DEPRECATED") else (""))
      ++ (match item.kind with
          | some k => (" (") ++ kindDebug k ++ (")")
          | none => (""))
      ++ (match item.detail with
          | some d => (" ") ++ d
          | none => (""))

/-- The inner action loop (main.rs lines 398-421): push an action_addrs
entry at the current offset for each action, then print its line. -/
def renderActionsInner (cid : ClientId) :
    List Action' → Nat → String → List (Nat × ClientId × Nat) →
    String × List (Nat × ClientId × Nat)
  | [], _, body, aa => (body, aa)
  | a :: rest, idx, body, aa =>
    renderActionsInner cid rest (idx + 1) (body ++ actionLine a)
      (aa ++ [(body.length, (cid, idx))])

/-- The action groups loop (main.rs lines 397-423): each ClientId group is
followed by a newline. -/
def renderActionGroups :
    List (ClientId × List Action') → String → List (Nat × ClientId × Nat) →
    String × List (Nat × ClientId × Nat)
  | [], body, aa => (body, aa)
  | g :: rest, body, aa =>
    let r := renderActionsInner g.1 g.2 0 body aa
    renderActionGroups rest (r.1 ++ ("\n")) r.2

/-- The output section (main.rs lines 426-428). -/
def renderOutput (output : List String) : String :=
  String.join (output.map (fun s => ("\n") ++ s ++ ("\n")))

/-- The progress section (main.rs lines 429-434). -/
def renderProgress (progress : List (String × Progress)) : String :=
  (if progress.length > 0 then ("\n") else (""))
    ++ String.join (progress.map (fun p => progressDisplay p.2 ++ ("\n")))

/-- The full rendered body with the rebuilt addr and action_addrs tables
(main.rs lines 328-434): diagnostics, file list, the addr sentinel at the
dashes, the separator line, action groups, the action_addrs sentinel with
msg_id 0 and index 100000, output, progress. -/
def renderSync (s : State) : String × List (Nat × Nat) × List (Nat × ClientId × Nat) :=
  let body0 := renderDiags s.diags
  let r1 := renderNames s.focus s.files s.capabilities s.names body0 []
  let addr := r1.2 ++ [(r1.1.length, 0)]
  let body1 := r1.1 ++ ("-----\n")
  let r2 := renderActionGroups s.actions body1 []
  let aa := r2.2 ++ [(r2.1.length, (ClientId.mk ("") 0, 100000))]
  let body2 := r2.1 ++ renderOutput s.output
  let body3 := body2 ++ renderProgress s.progress
  (body3, addr, aa)

/-- The output truncation of sync (main.rs lines 392-395): MAX_LEN is 1. -/
def truncOutput (l : List String) : List String :=
  if 1 < l.length then l.take 1 else l

/-- Server::sync (main.rs lines 328-443): truncate output, render, rebuild
addr and action_addrs, and write the window (body, then cleartag/clean,
then the Get tag) only when the rendered body differs from the cached one,
caching it then.  The boolean records whether the window was written. -/
def sync (s : State) : State × Bool :=
  let s1 : State := { s with output := truncOutput s.output }
  let r := renderSync s1
  let s2 : State := { s1 with addr := r.2.1, action_addrs := r.2.2 }
  if s2.body = r.1 then (s2, false)
  else ({ s2 with body := r.1 }, true)

/-! ## Concrete instances used by counterexamples and witnesses -/

/-- Body used by the C4 instances. -/
def cexBody : List Char := String.toList ("abcdef")

/-- Two non-overlapping edits in ascending document order whose later edit
grows the text. -/
def cexEdits : List TextEdit :=
  [{ soff := 0, eoff := 1, new_text := String.toList ("X") },
   { soff := 3, eoff := 4, new_text := String.toList ("YZ") }]

/-- Workspace edit carried by the C2 counterexample. -/
def cexWorkspaceEdit : WorkspaceEdit := { changes := [] }

/-- ClientId of the C2 instances. -/
def cexClientId : ClientId := { client_name := ("c"), msg_id := 1 }

/-- Requests map of the C2 instances. -/
def cexRequests : List (ClientId × String) := [(cexClientId, ("/p/foo.go"))]

/-- Actions map holding one code action that carries a workspace edit. -/
def cexActions : List (ClientId × List Action') :=
  [(cexClientId,
    [Action'.command (CodeActionOrCommand.codeAction
      { title := ("t"), edit := some cexWorkspaceEdit })])]

/-- addr table of the C3 counterexample: one file entry at offset 0 with
window id 5, then the dashes sentinel at offset 10 with id 0. -/
def cexAddr : List (Nat × Nat) := [(0, 5), (10, 0)]

/-- action_addrs table of the C3 counterexample: only the sentinel. -/
def cexActionAddrs : List (Nat × ClientId × Nat) :=
  [(10, (ClientId.mk ("") 0, 100000))]

/-! ## Helper lemmas -/

theorem alookup_mapInsert {α β : Type} [DecidableEq α] (k : α) (v : β)
    (m : List (α × β)) : alookup k (mapInsert k v m) = some v := by
  simp [alookup, mapInsert]

theorem textTrace_cons (sw : ServerWin) (n : Nat) :
    ServerWin.textTrace sw (n + 1)
      = (sw.version + 1)
          :: ServerWin.textTrace { sw with version := sw.version + 1 } n := rfl

theorem textTrace_chain (n : Nat) :
    ∀ sw : ServerWin, List.Chain' (fun a b => a < b) (ServerWin.textTrace sw n) := by
  induction n with
  | zero => intro sw; exact List.chain'_nil
  | succ m ih =>
    intro sw
    rw [textTrace_cons]
    cases m with
    | zero => exact List.chain'_singleton _
    | succ k =>
      rw [textTrace_cons]
      refine List.chain'_cons.mpr ⟨?_, ?_⟩
      · change sw.version + 1 < sw.version + 1 + 1
        omega
      · rw [← textTrace_cons]
        exact ih _

theorem new_tag_cons (s : TagState) (t : Nat) (rest : List Nat)
    (hf : s.free_tags = t :: rest) :
    new_tag s = Except.ok (t, { s with free_tags := rest,
                                        in_flight := t :: s.in_flight }) := by
  unfold new_tag
  rw [hf]

theorem new_tag_nil_ok (s : TagState) (hf : s.free_tags = [])
    (hne : s.next_tag ≠ NOTAG) :
    new_tag s = Except.ok (s.next_tag,
      { s with next_tag := s.next_tag + 1,
               in_flight := s.next_tag :: s.in_flight }) := by
  unfold new_tag
  rw [hf]
  simp [hne]

theorem new_tag_nil_err (s : TagState) (hf : s.free_tags = [])
    (he : s.next_tag = NOTAG) :
    new_tag s = Except.error ("out of tags") := by
  unfold new_tag
  rw [hf]
  simp [he]

theorem tag_inv_preserved {s : TagState} (h : TagReachable s) : TagInv s := by
  induction h with
  | start => exact ⟨by decide, by simp, by simp⟩
  | @alloc s t s2 hr heq ih =>
    obtain ⟨h1, h2, h3⟩ := ih
    rcases hf : s.free_tags with _ | ⟨t0, rest⟩
    · by_cases hne : s.next_tag = NOTAG
      · rw [new_tag_nil_err s hf hne] at heq
        cases heq
      · rw [new_tag_nil_ok s hf hne] at heq
        cases heq
        refine ⟨?_, fun u hu => h2 u hu, ?_⟩
        · change s.next_tag + 1 ≤ NOTAG
          omega
        · intro u hu
          rcases List.mem_cons.mp hu with rfl | hm
          · omega
          · exact h3 u hm
    · rw [new_tag_cons s t0 rest hf] at heq
      cases heq
      refine ⟨h1, ?_, ?_⟩
      · intro u hu
        exact h2 u (by rw [hf]; exact List.mem_cons_of_mem _ hu)
      · intro u hu
        rcases List.mem_cons.mp hu with rfl | hm
        · exact h2 u (by rw [hf]; exact List.mem_cons_self _ _)
        · exact h3 u hm
  | @release s t hr hmem ih =>
    obtain ⟨h1, h2, h3⟩ := ih
    refine ⟨h1, ?_, ?_⟩
    · intro u hu
      rcases List.mem_append.mp hu with h | h
      · exact h2 u h
      · rcases List.mem_singleton.mp h with rfl
        exact h3 u hmem
    · intro u hu
      exact h3 u (List.mem_of_mem_erase hu)

theorem find?_reverse {α : Type} (p : α → Bool) :
    ∀ l : List α, l.reverse.find? p = (l.filter p).getLast? := by
  intro l
  induction l with
  | nil => rfl
  | cons a l ih =>
    rw [List.reverse_cons, List.find?_append, ih, List.filter_cons]
    by_cases h : p a
    · rw [if_pos h]
      rcases hfl : l.filter p with _ | ⟨c, cs⟩
      · simp [List.find?, h]
      · rw [List.getLast?_cons_cons]
        rw [List.getLast?_eq_getLast _ (List.cons_ne_nil c cs)]
        rfl
    · rw [if_neg h]
      have hfa : List.find? p [a] = none := by simp [List.find?, h]
      rw [hfa]
      cases (l.filter p).getLast? <;> rfl

theorem lookup_addr_eq_getLast (addr : List (Nat × Nat)) (q0 : Nat) :
    lookup_addr addr q0
      = (((addr.filter (fun p => decide (p.1 < q0))).getLast?).map
          (fun p => p.2)).getD 0 := by
  unfold lookup_addr
  rw [find?_reverse]
  cases (addr.filter (fun p => decide (p.1 < q0))).getLast? <;> rfl

/-! ## Claim theorems -/

/-- C5: Conn::new performs the 9P version handshake exactly once at
construction: it sends Tversion with msize 131072 and version 9P2000,
fails when the reply msize exceeds the requested value or its version
differs from 9P2000, and otherwise adopts the server msize; in particular
a reply carrying msize 8192 leaves the connection with msize 8192. -/
theorem handshake_correct :
    ((initialTversion 0).msize = 131072 ∧ (initialTversion 0).version = ("9P2000")) ∧
    (∀ rx : Rversion, rx.msize ≤ requestedMsize → rx.version = ("9P2000") →
      connHandshake rx = Except.ok rx.msize) ∧
    (∀ rx : Rversion, requestedMsize < rx.msize →
      connHandshake rx = Except.error ("invalid msize")) ∧
    (∀ rx : Rversion, rx.msize ≤ requestedMsize → rx.version ≠ ("9P2000") →
      connHandshake rx = Except.error ("invalid version")) ∧
    connHandshake { msize := 8192, version := ("9P2000") } = Except.ok 8192 := by
  refine ⟨⟨rfl, rfl⟩, ?_, ?_, ?_, rfl⟩
  · intro rx h1 h2
    simp [connHandshake, Nat.not_lt.mpr h1, h2]
  · intro rx h1
    simp [connHandshake, h1]
  · intro rx h1 h2
    simp [connHandshake, Nat.not_lt.mpr h1, h2]

/-- Witness for C5 at the concrete 8192 reply. -/
theorem handshake_correct_witness :
    connHandshake { msize := 8192, version := ("9P2000") } = Except.ok 8192 :=
  handshake_correct.2.1 { msize := 8192, version := ("9P2000") } (by decide) rfl

/-- C8: a PublishDiagnostics notification replaces diags at the document
path with exactly one line per diagnostic, formatted as path, colon, start
line plus one, colon, severity in square brackets, and the first line of
the message; the concrete instance of the claim renders as
"/p/foo.go:10: [Error] mismatched types". -/
theorem publish_diagnostics_correct :
    (∀ (diags : List (String × List String)) (path : String) (ds : List Diagnostic),
      alookup path (publishDiagnostics diags path ds)
        = some (ds.map (formatDiagnostic path)) ∧
      (ds.map (formatDiagnostic path)).length = ds.length) ∧
    formatDiagnostic ("/p/foo.go")
      { start_line := 9, severity := some DiagnosticSeverity.Error,
        message := ("mismatched types\nnote: more") }
      = ("/p/foo.go:10: [Error] mismatched types") ∧
    publishDiagnostics [] ("/p/foo.go")
      [{ start_line := 9, severity := some DiagnosticSeverity.Error,
         message := ("mismatched types\nnote: more") }]
      = [(("/p/foo.go"), [("/p/foo.go:10: [Error] mismatched types")])] := by
  refine ⟨?_, by decide, by decide⟩
  intro diags path ds
  exact ⟨alookup_mapInsert path _ diags, by simp⟩

/-- C1 counterexample: for the window name /p/foo.go the didOpen payload
carries the empty language id, not the suffix-inferred "go" the claim
states (main.rs line 482 hardcodes the empty string). -/
theorem didopen_language_cex :
    (didOpenItem ("/p/foo.go") ("x")).language_id = ("") ∧
    specLanguageId ("/p/foo.go") = ("go") ∧
    (didOpenItem ("/p/foo.go") ("x")).language_id ≠ specLanguageId ("/p/foo.go") := by
  refine ⟨rfl, by decide, by decide⟩

/-- C1 (amended): for every window newly tracked by sync_windows, the
didOpen notification carries the window body text and an always-empty
language id, regardless of the filename suffix, together with the file url
and the bumped version. -/
theorem didopen_empty_language (name body : String) :
    (didOpenItem name body).language_id = ("") ∧
    (didOpenItem name body).text = body ∧
    (didOpenItem name body).version = 2 ∧
    (didOpenItem name body).uri = ("file://") ++ name :=
  ⟨rfl, rfl, rfl, rfl⟩

/-- C9: every ServerWin::text call bumps the version by one before
returning it, didChange and didOpen carry exactly the value so obtained,
and the versions of successive text calls form a strictly increasing
sequence. -/
theorem serverwin_version_monotonic :
    (∀ sw : ServerWin, (ServerWin.text sw).2.1 = sw.version + 1
      ∧ (ServerWin.text sw).1.version = sw.version + 1) ∧
    (∀ sw : ServerWin,
      (ServerWin.change_params sw).2.text_document.version = sw.version + 1
      ∧ (ServerWin.change_params sw).2.content_text = sw.body) ∧
    (∀ name body : String,
      (didOpenItem name body).version = (ServerWin.new name body).version + 1) ∧
    (∀ (sw : ServerWin) (n : Nat),
      List.Chain' (fun a b => a < b) (ServerWin.textTrace sw n)) :=
  ⟨fun _ => ⟨rfl, rfl⟩, fun _ => ⟨rfl, rfl⟩, fun _ _ => rfl,
   fun sw n => textTrace_chain n sw⟩

/-- C6: new_tag allocates from the front of the free list when non-empty,
otherwise returns next_tag and increments it; it fails exactly when the
free list is empty and next_tag has reached NOTAG; and on any reachable
allocator state a successful allocation never returns NOTAG. -/
theorem new_tag_correct (s : TagState) (h : TagReachable s) :
    (∀ t rest, s.free_tags = t :: rest →
      new_tag s = Except.ok (t, { s with free_tags := rest,
                                          in_flight := t :: s.in_flight })) ∧
    (s.free_tags = [] → s.next_tag ≠ NOTAG →
      new_tag s = Except.ok (s.next_tag,
        { s with next_tag := s.next_tag + 1,
                 in_flight := s.next_tag :: s.in_flight })) ∧
    ((∃ e, new_tag s = Except.error e) ↔ s.free_tags = [] ∧ s.next_tag = NOTAG) ∧
    (∀ t s2, new_tag s = Except.ok (t, s2) → t ≠ NOTAG) := by
  obtain ⟨h1, h2, h3⟩ := tag_inv_preserved h
  refine ⟨?_, ?_, ?_, ?_⟩
  · intro t rest hf
    exact new_tag_cons s t rest hf
  · intro hf hne
    exact new_tag_nil_ok s hf hne
  · constructor
    · rintro ⟨e, he⟩
      rcases hf : s.free_tags with _ | ⟨t0, rest⟩
      · by_cases hne : s.next_tag = NOTAG
        · exact ⟨rfl, hne⟩
        · rw [new_tag_nil_ok s hf hne] at he
          cases he
      · rw [new_tag_cons s t0 rest hf] at he
        cases he
    · rintro ⟨hf, hn⟩
      exact ⟨("out of tags"), new_tag_nil_err s hf hn⟩
  · intro t s2 he
    rcases hf : s.free_tags with _ | ⟨t0, rest⟩
    · by_cases hne : s.next_tag = NOTAG
      · rw [new_tag_nil_err s hf hne] at he
        cases he
      · rw [new_tag_nil_ok s hf hne] at he
        cases he
        exact hne
    · rw [new_tag_cons s t0 rest hf] at he
      cases he
      have := h2 t (by rw [hf]; exact List.mem_cons_self _ _)
      omega

/-- Witness for C6 at the initial allocator state. -/
theorem new_tag_correct_witness :
    new_tag { next_tag := 0, free_tags := [], in_flight := [] }
      = Except.ok (0, { next_tag := 1, free_tags := [], in_flight := [0] }) ∧
    (0 : Nat) ≠ NOTAG := by
  have h := new_tag_correct _ TagReachable.start
  exact ⟨h.2.1 rfl (by decide), h.2.2.2 0 _ (h.2.1 rfl (by decide))⟩

/-- C2 counterexample: for a stored CodeAction carrying a workspace edit,
run_code_action only prints the edit (main.rs line 919) — the outcome is
not an application of any edit to the editor, contradicting the claim that
a CodeAction applies its workspace edit. -/
theorem run_code_action_cex :
    run_code_action cexRequests cexActions cexClientId 0
      = some { actions := [], effect := RunActionEffect.printedEdit cexWorkspaceEdit } ∧
    appliesEdit (RunActionEffect.printedEdit cexWorkspaceEdit) = false := by
  exact ⟨by decide, rfl⟩

/-- C2 (amended): for every stored action selected by a click,
run_code_action clears the actions map and acts by kind: a Completion with
a text edit applies that edit to the window recorded for the request
ClientId, a Completion without one panics as unsupported, a CodeAction only
prints its workspace edit without applying anything, and a bare Command
panics as unsupported. -/
theorem run_code_action_correct (requests : List (ClientId × String))
    (actions : List (ClientId × List Action')) (cid : ClientId) (idx : Nat)
    (url : String) (acts : List Action') (a : Action')
    (hreq : alookup cid requests = some url)
    (hact : alookup cid actions = some acts)
    (hidx : acts.get? idx = some a) :
    (∀ out, run_code_action requests actions cid idx = some out →
      out.actions = []) ∧
    (∀ c, a = Action'.command (CodeActionOrCommand.command c) →
      run_code_action requests actions cid idx
        = some { actions := [], effect := RunActionEffect.panicUnsupported }) ∧
    (∀ ca e, a = Action'.command (CodeActionOrCommand.codeAction ca) →
      ca.edit = some e →
      run_code_action requests actions cid idx
        = some { actions := [], effect := RunActionEffect.printedEdit e } ∧
      appliesEdit (RunActionEffect.printedEdit e) = false) ∧
    (∀ item e, a = Action'.completion item → item.text_edit = some e →
      run_code_action requests actions cid idx
        = some { actions := []
                 effect := RunActionEffect.appliedTextEdits url
                   (item.insert_text_format.getD InsertTextFormat.plainText) [e] }) ∧
    (∀ item, a = Action'.completion item → item.text_edit = none →
      run_code_action requests actions cid idx
        = some { actions := [], effect := RunActionEffect.panicUnsupported }) := by
  refine ⟨?_, ?_, ?_, ?_, ?_⟩
  · intro out hout
    unfold run_code_action at hout
    simp only [hreq, hact, hidx] at hout
    cases hout
    rfl
  · rintro c rfl
    unfold run_code_action
    simp only [hreq, hact, hidx]
  · rintro ca e rfl hedit
    refine ⟨?_, rfl⟩
    unfold run_code_action
    simp only [hreq, hact, hidx, hedit]
  · rintro item e rfl hedit
    unfold run_code_action
    simp only [hreq, hact, hidx, hedit]
  · rintro item rfl hedit
    unfold run_code_action
    simp only [hreq, hact, hidx, hedit]

/-- Witness for C2 at the concrete stored code action. -/
theorem run_code_action_correct_witness :
    run_code_action cexRequests cexActions cexClientId 0
      = some { actions := [], effect := RunActionEffect.printedEdit cexWorkspaceEdit } :=
  ((run_code_action_correct cexRequests cexActions cexClientId 0 ("/p/foo.go")
    [Action'.command (CodeActionOrCommand.codeAction
      { title := ("t"), edit := some cexWorkspaceEdit })]
    (Action'.command (CodeActionOrCommand.codeAction
      { title := ("t"), edit := some cexWorkspaceEdit }))
    (by decide) (by decide) (by decide)).2.2.1
    { title := ("t"), edit := some cexWorkspaceEdit } cexWorkspaceEdit rfl rfl).1

/-- C10: at every reachable coordinator state the actions map holds at most
one ClientId key, and run_code_action always leaves the actions map
empty, so a stored action list can be invoked at most once. -/
theorem actions_at_most_one (m : List (ClientId × List Action'))
    (h : ActionsReachable m) :
    m.length ≤ 1 ∧
    (∀ requests cid idx out,
      run_code_action requests m cid idx = some out → out.actions = []) := by
  constructor
  · induction h with
    | empty => simp
    | completionResp m cid items hr ih => simp [completionResponseActions, mapInsert]
    | codeActionResp m cid cmds hr ih => simp [codeActionResponseActions, mapInsert]
    | runCodeActionClear m hr ih => simp
    | getClear m hr ih => simp
  · intro requests cid idx out hout
    unfold run_code_action at hout
    rcases h1 : alookup cid requests with _ | url
    · simp only [h1] at hout
      cases hout
    · simp only [h1] at hout
      rcases h2 : alookup cid m with _ | acts
      · simp only [h2] at hout
        cases hout
      · simp only [h2] at hout
        rcases h3 : acts.get? idx with _ | a
        · simp only [h3] at hout
          cases hout
        · simp only [h3] at hout
          cases hout
          rfl

/-- Witness for C10 at a state reached by one completion response. -/
theorem actions_at_most_one_witness :
    (completionResponseActions cexClientId [] []).length ≤ 1 :=
  (actions_at_most_one _
    (ActionsReachable.completionResp [] cexClientId [] ActionsReachable.empty)).1

/-- C3 counterexample: with addr holding a file entry (0, 5) and the dashes
sentinel (10, 0), a click at offset 15 makes run_cmd fall through to
plumbing, although the last addr entry with offset below 15 and non-zero
id is the file entry with window id 5, which the claim says receives the
event. -/
theorem run_cmd_look_cex :
    run_cmd_look cexAddr cexActionAddrs 15 ("x") = LookDecision.plumb ("x") ∧
    specLookupAddr cexAddr 15 = some 5 ∧
    LookDecision.plumb ("x") ≠ LookDecision.window 5 := by
  exact ⟨by decide, by decide, by decide⟩

/-- C3 (amended): on an L event at click offset q0, run_cmd takes the id of
the last addr entry whose offset is strictly below q0; only when that id is
non-zero is the event routed to that window, which then receives a
didChange (bumped version, current body) followed by the LSP request named
by the clicked text; when that id is zero or no entry matches, the
action_addrs table (last entry with offset below q0 and non-zero msg_id)
and then plumbing are tried. -/
theorem run_cmd_look_correct (addr : List (Nat × Nat))
    (aa : List (Nat × ClientId × Nat)) (q0 : Nat) (text : String) :
    (lookup_addr addr q0
      = (((addr.filter (fun p => decide (p.1 < q0))).getLast?).map
          (fun p => p.2)).getD 0) ∧
    (lookup_addr addr q0 ≠ 0 →
      run_cmd_look addr aa q0 text = LookDecision.window (lookup_addr addr q0)) ∧
    (∀ r, lookup_addr addr q0 = 0 → lookup_action aa q0 = some r →
      run_cmd_look addr aa q0 text = LookDecision.action r.1 r.2) ∧
    (lookup_addr addr q0 = 0 → lookup_action aa q0 = none →
      run_cmd_look addr aa q0 text = LookDecision.plumb text) ∧
    (∀ (sw : ServerWin) (k : LspRequestKind), requestKind text = some k →
      (run_event_msgs sw text).2
        = [WinMsg.didChange (sw.version + 1) sw.body, WinMsg.request k]) := by
  refine ⟨lookup_addr_eq_getLast addr q0, ?_, ?_, ?_, ?_⟩
  · intro h
    unfold run_cmd_look
    simp [h]
  · intro r h1 h2
    unfold run_cmd_look
    simp [h1, h2]
  · intro h1 h2
    unfold run_cmd_look
    simp [h1, h2]
  · intro sw k hk
    unfold run_event_msgs
    rw [hk]
    rfl

/-- Witness for C3 with a single file entry clicked inside its line. -/
theorem run_cmd_look_correct_witness :
    run_cmd_look [(0, 5)] [] 1 ("definition")
      = LookDecision.window (lookup_addr [(0, 5)] 1) :=
  (run_cmd_look_correct [(0, 5)] [] 1 ("definition")).2.1 (by decide)

theorem sortedFromB_cons {p : Nat} {e : TextEdit} {rest : List TextEdit}
    (h : sortedFromB p (e :: rest) = true) :
    p ≤ e.soff ∧ e.soff ≤ e.eoff ∧ sortedFromB e.eoff rest = true := by
  simpa [sortedFromB, Bool.and_eq_true, decide_eq_true_eq, and_assoc] using h

theorem boundedB_cons {len : Nat} {e : TextEdit} {rest : List TextEdit}
    (h : boundedB len (e :: rest) = true) :
    e.eoff ≤ len ∧ boundedB len rest = true := by
  simpa [boundedB, List.all_cons, Bool.and_eq_true, decide_eq_true_eq] using h

theorem directSplice_take (body0 : List Char) :
    ∀ (edits : List TextEdit) (q : Nat),
      sortedFromB q edits = true → boundedB body0.length edits = true →
      q ≤ body0.length →
      (directSplice body0 edits).take q = body0.take q := by
  intro edits
  induction edits with
  | nil => intro q _ _ _; rfl
  | cons e rest ih =>
    intro q hs hb hq
    obtain ⟨hqs, hse, hrest⟩ := sortedFromB_cons hs
    obtain ⟨hel, hbrest⟩ := boundedB_cons hb
    have hBtake : (directSplice body0 rest).take e.eoff = body0.take e.eoff :=
      ih e.eoff hrest hbrest hel
    have hBlen : e.eoff ≤ (directSplice body0 rest).length := by
      have h := congrArg List.length hBtake
      simp only [List.length_take] at h
      omega
    show (splice (directSplice body0 rest) e.soff e.eoff e.new_text).take q
        = body0.take q
    unfold splice
    rw [List.take_append_of_le_length
      (by simp only [List.length_append, List.length_take]; omega)]
    rw [List.take_append_of_le_length
      (by simp only [List.length_take]; omega)]
    rw [List.take_take, Nat.min_eq_left hqs]
    have h1 : (directSplice body0 rest).take q
        = ((directSplice body0 rest).take e.eoff).take q := by
      rw [List.take_take, Nat.min_eq_left (le_trans hqs hse)]
    rw [h1, hBtake, List.take_take, Nat.min_eq_left (le_trans hqs hse)]

theorem applyLoop_spec (body0 : List Char) :
    ∀ (asc : List TextEdit) (p : Nat) (pre : List Char),
      sortedFromB p asc = true → boundedB body0.length asc = true →
      p ≤ body0.length →
      applyLoop (pre ++ body0.drop p) ((pre.length : Int) - (p : Int)) asc
        = pre ++ (directSplice body0 asc).drop p := by
  intro asc
  induction asc with
  | nil => intro p pre _ _ _; rfl
  | cons e rest ih =>
    intro p pre hs hb hp
    obtain ⟨hps, hse, hrest⟩ := sortedFromB_cons hs
    obtain ⟨hel, hbrest⟩ := boundedB_cons hb
    have hsL : e.soff ≤ body0.length := le_trans hse hel
    have hsoff : (((e.soff : Int) + ((pre.length : Int) - (p : Int)))).toNat
        = pre.length + (e.soff - p) := by omega
    have heoff : (((e.eoff : Int) + ((pre.length : Int) - (p : Int)))).toNat
        = pre.length + (e.eoff - p) := by omega
    simp only [applyLoop]
    rw [hsoff, heoff]
    have hsplice :
        splice (pre ++ body0.drop p) (pre.length + (e.soff - p))
            (pre.length + (e.eoff - p)) e.new_text
          = (pre ++ ((body0.drop p).take (e.soff - p) ++ e.new_text))
              ++ body0.drop e.eoff := by
      unfold splice
      rw [List.take_append, List.drop_append, List.drop_drop]
      have h1 : p + (e.eoff - p) = e.eoff := by omega
      rw [h1]
      simp [List.append_assoc]
    rw [hsplice]
    have hdelta : (pre.length : Int) - (p : Int) + editDelta e
        = (((pre ++ ((body0.drop p).take (e.soff - p) ++ e.new_text)).length : Int)
            - (e.eoff : Int)) := by
      unfold editDelta
      have hlen : (pre ++ ((body0.drop p).take (e.soff - p) ++ e.new_text)).length
          = pre.length + ((e.soff - p) + e.new_text.length) := by
        simp only [List.length_append, List.length_take, List.length_drop]
        omega
      rw [hlen]
      omega
    rw [hdelta]
    rw [ih e.eoff (pre ++ ((body0.drop p).take (e.soff - p) ++ e.new_text))
      hrest hbrest hel]
    have hB : directSplice body0 (e :: rest)
        = splice (directSplice body0 rest) e.soff e.eoff e.new_text := rfl
    rw [hB]
    have hBtake : (directSplice body0 rest).take e.eoff = body0.take e.eoff :=
      directSplice_take body0 rest e.eoff hrest hbrest hel
    have hBlen : e.eoff ≤ (directSplice body0 rest).length := by
      have h := congrArg List.length hBtake
      simp only [List.length_take] at h
      omega
    have hTs : (directSplice body0 rest).take e.soff = body0.take e.soff := by
      have h1 : (directSplice body0 rest).take e.soff
          = ((directSplice body0 rest).take e.eoff).take e.soff := by
        rw [List.take_take, Nat.min_eq_left hse]
      rw [h1, hBtake, List.take_take, Nat.min_eq_left hse]
    have hRHS : (splice (directSplice body0 rest) e.soff e.eoff e.new_text).drop p
        = (body0.drop p).take (e.soff - p)
            ++ (e.new_text ++ (directSplice body0 rest).drop e.eoff) := by
      unfold splice
      rw [List.drop_append_of_le_length
        (by simp only [List.length_append, List.length_take]; omega)]
      rw [hTs]
      rw [List.drop_append_of_le_length
        (by simp only [List.length_take]; omega)]
      rw [List.drop_take]
      simp [List.append_assoc]
    rw [hRHS]
    simp [List.append_assoc]

theorem apply_text_edits_loop (body : List Char) :
    ∀ (asc : List TextEdit),
      sortedFromB 0 asc = true → boundedB body.length asc = true →
      applyLoop body 0 asc = directSplice body asc := by
  intro asc hs hb
  have h := applyLoop_spec body asc 0 [] hs hb (Nat.zero_le _)
  simpa using h

/-- C4 counterexample: the ascending two-edit list over "abcdef", with the
later edit growing the text, makes apply_text_edits (which applies the
given list in reverse order with the delta accumulation) produce "aXcYZef"
while the direct splice of the same edits gives "XbcYZef": the delta shifts
the earlier edit although no earlier region changed size. -/
theorem apply_text_edits_cex :
    apply_text_edits cexBody cexEdits = String.toList ("aXcYZef") ∧
    directSplice cexBody cexEdits = String.toList ("XbcYZef") ∧
    sortedFromB 0 cexEdits = true ∧
    boundedB cexBody.length cexEdits = true ∧
    apply_text_edits cexBody cexEdits ≠ directSplice cexBody cexEdits := by
  refine ⟨by decide, by decide, by decide, by decide, by decide⟩

/-- C4 (amended): for every non-empty list of TextEdits with
non-overlapping ranges inside the body that is handed to apply_text_edits
in reverse document order (later edits first, so the loop applies them in
forward document order and delta accumulates the size changes of earlier
regions), and that is neither a single full-document replacement nor a
single edit whose new text equals the whole body, apply_text_edits leaves
the body equal to the direct splice of the edits. -/
theorem apply_text_edits_correct (body : List Char) (asc : List TextEdit)
    (hne : asc ≠ [])
    (hs : sortedFromB 0 asc = true)
    (hb : boundedB body.length asc = true)
    (hsingle : ∀ e, asc = [e] →
      body ≠ e.new_text ∧ ¬(e.soff = 0 ∧ e.eoff = body.length)) :
    apply_text_edits body asc.reverse = directSplice body asc := by
  cases asc with
  | nil => exact absurd rfl hne
  | cons e rest =>
    cases rest with
    | nil =>
      obtain ⟨hne2, hnf⟩ := hsingle e rfl
      show (if body = e.new_text then body
        else if e.soff = 0 ∧ e.eoff = body.length then e.new_text
        else applyLoop body 0 [e]) = directSplice body [e]
      rw [if_neg hne2, if_neg hnf]
      exact apply_text_edits_loop body [e] hs hb
    | cons e2 rest2 =>
      rcases hrev : (e :: e2 :: rest2).reverse with _ | ⟨f1, fr⟩
      · have h := congrArg List.length hrev
        simp at h
      · rcases fr with _ | ⟨f2, fr2⟩
        · have h := congrArg List.length hrev
          simp at h
        · show applyLoop body 0 ((f1 :: f2 :: fr2).reverse)
              = directSplice body (e :: e2 :: rest2)
          rw [← hrev, List.reverse_reverse]
          exact apply_text_edits_loop body (e :: e2 :: rest2) hs hb

/-- Witness for C4 at the concrete two-edit list handed over in reverse
document order. -/
theorem apply_text_edits_correct_witness :
    apply_text_edits cexBody cexEdits.reverse = directSplice cexBody cexEdits := by
  refine apply_text_edits_correct cexBody cexEdits (by decide) (by decide) (by decide) ?_
  intro e he
  have h := congrArg List.length he
  simp [cexEdits] at h

theorem truncOutput_not_lt (l : List String) : ¬ 1 < (truncOutput l).length := by
  unfold truncOutput
  split
  · next h => simp only [List.length_take]; omega
  · next h => omega

theorem truncOutput_stable (l : List String) : truncOutput (truncOutput l) = truncOutput l := by
  have h := truncOutput_not_lt l
  show (if 1 < (truncOutput l).length then (truncOutput l).take 1 else truncOutput l)
      = truncOutput l
  rw [if_neg h]

theorem renderSync_eq (s t : State)
    (h1 : s.names = t.names) (h2 : s.output = t.output) (h3 : s.focus = t.focus)
    (h4 : s.progress = t.progress) (h5 : s.diags = t.diags)
    (h6 : s.actions = t.actions) (h7 : s.files = t.files)
    (h8 : s.capabilities = t.capabilities) :
    renderSync s = renderSync t := by
  unfold renderSync
  rw [h1, h2, h3, h4, h5, h6, h7, h8]

theorem sync_no_write (t : State)
    (h1 : ¬ 1 < t.output.length)
    (h2 : t.body = (renderSync t).1)
    (h3 : t.addr = (renderSync t).2.1)
    (h4 : t.action_addrs = (renderSync t).2.2) :
    sync t = (t, false) := by
  simp only [sync]
  have ht : truncOutput t.output = t.output := by
    unfold truncOutput
    rw [if_neg h1]
  rw [ht]
  have e1 : ({ t with output := t.output } : State) = t := rfl
  rw [e1]
  rw [← h3, ← h4]
  have e2 : ({ t with addr := t.addr, action_addrs := t.action_addrs } : State) = t := rfl
  rw [e2]
  rw [if_pos h2]

theorem sync_state (s : State) :
    ¬ 1 < ((sync s).1).output.length ∧
    ((sync s).1).body = (renderSync (sync s).1).1 ∧
    ((sync s).1).addr = (renderSync (sync s).1).2.1 ∧
    ((sync s).1).action_addrs = (renderSync (sync s).1).2.2 := by
  simp only [sync]
  split
  · next h =>
    refine ⟨truncOutput_not_lt s.output, ?_, ?_, ?_⟩
    · exact h.trans (congrArg Prod.fst
        (renderSync_eq _ _ rfl rfl rfl rfl rfl rfl rfl rfl)).symm
    · exact (congrArg (fun r => r.2.1)
        (renderSync_eq _ _ rfl rfl rfl rfl rfl rfl rfl rfl)).symm
    · exact (congrArg (fun r => r.2.2)
        (renderSync_eq _ _ rfl rfl rfl rfl rfl rfl rfl rfl)).symm
  · next h =>
    refine ⟨truncOutput_not_lt s.output, ?_, ?_, ?_⟩
    · exact (congrArg Prod.fst
        (renderSync_eq _ _ rfl rfl rfl rfl rfl rfl rfl rfl)).symm
    · exact (congrArg (fun r => r.2.1)
        (renderSync_eq _ _ rfl rfl rfl rfl rfl rfl rfl rfl)).symm
    · exact (congrArg (fun r => r.2.2)
        (renderSync_eq _ _ rfl rfl rfl rfl rfl rfl rfl rfl)).symm

/-- C7: the rendered command-window body is a pure function (renderSync) of
the coordinator state; sync writes the window only when the rendered body
differs from the cached one, and running sync again on the state it
produced performs no window write and leaves the state unchanged. -/
theorem sync_idempotent (s : State) :
    sync (sync s).1 = ((sync s).1, false) ∧
    ((sync s).2 = false ↔
      s.body = (renderSync { s with output := truncOutput s.output }).1) := by
  constructor
  · obtain ⟨h1, h2, h3, h4⟩ := sync_state s
    exact sync_no_write _ h1 h2 h3 h4
  · simp only [sync]
    split
    · next h => exact ⟨fun _ => h, fun _ => rfl⟩
    · next h =>
      constructor
      · intro hc
        cases hc
      · intro hc
        exact absurd hc h
